import Mathlib

/-!
# Verification of the Floe sync engine

Shallow embedding of the Floe repository's sync core
(`src/main.py`, `src/services/categorizer.py`, `src/services/ytmusic.py`,
`src/config.py`) and proofs of the specification claims about it.

Python dicts parsed from JSON are modelled as structures whose possibly
absent fields are `Option`s; Python truthiness of a string value
(`if vid:`) is "present and non-empty".  The classification cache
(a JSON object, i.e. an insertion-ordered dict with unique keys) is an
association list managed by `cacheInsert`/`cacheLookup`/`cacheHas`.
External collaborators (history source, Claude, the YT Music remote
store) are oracle parameters of the model.
-/

namespace Floe

/-- A normalized history entry, as produced by
`YTMusicService.get_history` (ytmusic.py lines 66-87). -/
structure Song where
  videoId : String
  title : String
  artist : String
  album : String
  duration_seconds : Nat
  played_at : String
deriving DecidableEq, Repr

/-- The stripped form of a song sent to the classifier
(categorizer.py lines 127-136: `songs_for_prompt`); `duration_seconds`
is dropped. -/
structure PromptSong where
  videoId : String
  title : String
  artist : String
  album : String
  played_at : String
deriving DecidableEq, Repr

/-- categorizer.py lines 127-136: strip a song to what Claude needs. -/
def strip (s : Song) : PromptSong :=
  ⟨s.videoId, s.title, s.artist, s.album, s.played_at⟩

/-- One classification result dict returned by Claude
(the response contract of categorizer.py lines 31-40).  Every field may
be absent from the parsed JSON object, hence the `Option`s; `none`
models the key being absent from the dict. -/
structure Cat where
  videoId : Option String
  energy_level : Option Int
  tempo : Option String
  mood : Option String
  best_playlist : Option String
  confidence : Option ℚ
  reasoning : Option String
deriving DecidableEq, Repr

/-- One entry of `config/playlists.json`: key, display name, description
and the remote playlist id (absent or null until provisioned). -/
structure PlaylistCfg where
  key : String
  name : String
  description : String
  ytmusic_playlist_id : Option String
deriving DecidableEq, Repr

/-- The parts of `config/schedule.json` read by the sync pipeline:
`default_playlist` (main.py line 104) and `initial_scan_depth`
(main.py line 79).  `none` models the key being absent (the recurring
activities feed only the prompt text, not the control flow). -/
structure Schedule where
  default_playlist : Option String
  initial_scan_depth : Option Nat
deriving DecidableEq, Repr

/-- Python truthiness of an optional string: present and non-empty. -/
def truthyOpt : Option String → Bool
  | none => false
  | some s => if s = "" then false else true

/-! ## Classification cache (config.py `load_song_cache`/`save_song_cache`,
used in main.py lines 77, 86-99).  A Python dict keyed by videoId. -/

/-- `vid in cache`. -/
def cacheHas (c : List (String × Cat)) (k : String) : Bool :=
  c.any (fun kv => kv.1 = k)

/-- `cache[vid]` (`some` exactly when the key is present). -/
def cacheLookup (c : List (String × Cat)) (k : String) : Option Cat :=
  (c.find? (fun kv => kv.1 = k)).map (fun kv => kv.2)

/-- `cache[vid] = cat`: update in place if present, else append
(Python dict insertion order). -/
def cacheInsert (c : List (String × Cat)) (k : String) (v : Cat) :
    List (String × Cat) :=
  if c.any (fun kv => kv.1 = k) then
    c.map (fun kv => if kv.1 = k then (k, v) else kv)
  else c ++ [(k, v)]

/-! ## Playlist Store model (ytmusic.py).  Remote membership is a set of
videoIds per playlist id; `readOk`/`addOk` oracles say whether
`get_playlist` and `add_playlist_items` succeed (exceptions are caught
in the source and degrade to `set()` / `return 0`). -/

/-- Outcome of one `add_songs_to_playlist` call: the returned count, the
remote membership after the call, and whether the remote
`add_playlist_items` call was made. -/
structure AddOutcome where
  added : Nat
  mem : String → Finset String
  calledAdd : Bool

/-- ytmusic.py lines 106-117, `get_playlist_video_ids`: the playlist's
membership on success, `∅` when the fetch raises (caught, logged). -/
def get_playlist_video_ids (m : String → Finset String)
    (readOk : String → Bool) (pid : String) : Finset String :=
  if readOk pid then m pid else ∅

/-- ytmusic.py lines 119-135, `add_songs_to_playlist`: short-circuit on
empty input, read membership, filter to ids not already present,
short-circuit if nothing new, then call `add_playlist_items`
(`duplicates=False`, so the remote adds each id at most once); a failed
add is caught and returns 0. -/
def add_songs_to_playlist (m : String → Finset String)
    (readOk addOk : String → Bool) (pid : String)
    (video_ids : List String) : AddOutcome :=
  if video_ids = [] then ⟨0, m, false⟩
  else
    let existing := get_playlist_video_ids m readOk pid
    let new_ids := video_ids.filter (fun vid => !(vid ∈ existing))
    if new_ids = [] then ⟨0, m, false⟩
    else if addOk pid then
      ⟨new_ids.length,
       fun p => if p = pid then m pid ∪ new_ids.toFinset else m p,
       true⟩
    else ⟨0, m, true⟩

/-! ## Batch Classifier model (categorizer.py).  `_call_claude` either
returns the parsed JSON list, or raises `json.JSONDecodeError`
(malformed payload) or `anthropic.APIError`; the latter two are caught
and return `[]` (lines 178-183). -/

/-- Claude's response to one batch, as seen by `_call_claude`. -/
inductive ClaudeResp where
  | parsed (results : List Cat)
  | malformed
  | apiError
deriving DecidableEq

/-- categorizer.py lines 155-183, `_call_claude`: the result list on a
parse, `[]` on a malformed payload or API error. -/
def callClaude (oracle : List PromptSong → ClaudeResp)
    (batch : List PromptSong) : List Cat :=
  match oracle batch with
  | .parsed results => results
  | .malformed => []
  | .apiError => []

/-- Fuel-indexed helper for `chunks20`.  The fuel bounds the number of
loop iterations; each iteration of `for i in range(0, len(songs), 20)`
consumes at least one list element, so `fuel = length` never runs out
(the `0, _ :: _` case is unreachable from `chunks20`). -/
def chunks20Go {α : Type} : Nat → List α → List (List α)
  | _, [] => []
  | 0, _ :: _ => []
  | fuel + 1, a :: l => ((a :: l).take 20) :: chunks20Go fuel ((a :: l).drop 20)

/-- categorizer.py lines 141-142: the slices
`songs[0:20], songs[20:40], ...` of `for i in range(0, len(songs), 20)`. -/
def chunks20 {α : Type} (l : List α) : List (List α) :=
  chunks20Go l.length l

/-- categorizer.py lines 109-153, `Categorizer.categorize`: empty input
short-circuits; otherwise strip the songs, batch them in twenties and
concatenate each batch's `_call_claude` results. -/
def categorize (oracle : List PromptSong → ClaudeResp)
    (songs : List Song) : List Cat :=
  if songs = [] then []
  else ((chunks20 (songs.map strip)).map (callClaude oracle)).flatten

/-! ## Provisioning (main.py `ensure_playlists`, ytmusic.py
`find_playlist_by_name` / `create_playlist`). -/

/-- The remote playlist library: `(title, playlistId)` pairs in listing
order, plus a counter generating fresh ids for created playlists. -/
structure RemoteStore where
  playlists : List (String × String)
  nextId : Nat
deriving DecidableEq, Repr

/-- ytmusic.py lines 95-104, `find_playlist_by_name`: scan the library
listing (fetched with `limit=100`) for the first exact title match. -/
def find_playlist_by_name (store : RemoteStore) (name : String) :
    Option String :=
  ((store.playlists.take 100).find? (fun pl => pl.1 = name)).map
    (fun pl => pl.2)

/-- ytmusic.py lines 89-93, `create_playlist`: create a playlist with
the given title and return its fresh id; the new playlist appears in
the library listing (newest first). -/
def create_playlist (store : RemoteStore) (name : String) :
    String × RemoteStore :=
  let pid := "PL" ++ toString store.nextId
  (pid, ⟨(name, pid) :: store.playlists, store.nextId + 1⟩)

/-- Result of `ensure_playlists`: the updated configs, the updated
remote store, and the display names for which `create_playlist` was
called, in order. -/
structure ProvisionResult where
  playlists : List PlaylistCfg
  store : RemoteStore
  creates : List String
deriving DecidableEq, Repr

/-- One iteration of the `ensure_playlists` loop (main.py lines 27-38):
skip configs whose `ytmusic_playlist_id` is truthy; otherwise adopt an
exact-name match from the library, or create the playlist. -/
def ensureStep (acc : ProvisionResult) (p : PlaylistCfg) :
    ProvisionResult :=
  if truthyOpt p.ytmusic_playlist_id then
    ⟨acc.playlists ++ [p], acc.store, acc.creates⟩
  else
    match find_playlist_by_name acc.store p.name with
    | some existing_id =>
        ⟨acc.playlists ++ [{ p with ytmusic_playlist_id := some existing_id }],
         acc.store, acc.creates⟩
    | none =>
        let created := create_playlist acc.store p.name
        ⟨acc.playlists ++ [{ p with ytmusic_playlist_id := some created.1 }],
         created.2, acc.creates ++ [p.name]⟩

/-- main.py lines 25-41, `ensure_playlists`. -/
def ensure_playlists (store : RemoteStore) (playlists : List PlaylistCfg) :
    ProvisionResult :=
  playlists.foldl ensureStep ⟨[], store, []⟩

/-! ## Reconciliation grouping (main.py lines 102-109). -/

/-- main.py line 104:
`key = cat.get("best_playlist", schedule.get("default_playlist", ""))`.
The default is used only when the `best_playlist` key is absent; the
result's `confidence` is not consulted.  (An absent `default_playlist`
yields `""`; a JSON-null default is also falsy downstream, so both are
collapsed to `""` here.) -/
def resolvedKey (sched : Schedule) (c : Cat) : String :=
  c.best_playlist.getD (sched.default_playlist.getD "")

/-- `playlist_songs.setdefault(key, []).append(vid)` on an
insertion-ordered dict of lists. -/
def addToGroups (gs : List (String × List String)) (k v : String) :
    List (String × List String) :=
  match gs with
  | [] => [(k, [v])]
  | g :: rest =>
      if g.1 = k then (g.1, g.2 ++ [v]) :: rest
      else g :: addToGroups rest k v

/-- One iteration of the grouping loop (main.py lines 103-107):
`if vid and key:` keeps only truthy videoIds and truthy keys. -/
def groupStep (sched : Schedule) (gs : List (String × List String))
    (c : Cat) : List (String × List String) :=
  let key := resolvedKey sched c
  match c.videoId with
  | none => gs
  | some vid => if vid = "" ∨ key = "" then gs else addToGroups gs key vid

/-- main.py lines 103-107: group all results by resolved playlist key. -/
def groupResults (sched : Schedule) (results : List Cat) :
    List (String × List String) :=
  results.foldl (groupStep sched) []

/-! ## Reconciliation loop (main.py lines 111-121). -/

/-- `playlist_id_map.get(key)` followed by the `if not pid:` truthiness
check: `playlist_id_map = {p["key"]: p["ytmusic_playlist_id"] for p in
playlists}`, so a duplicated key keeps the last config's id. -/
def lookupPid (pls : List PlaylistCfg) (k : String) : Option String :=
  match (pls.filter (fun p => p.key = k)).getLast? with
  | none => none
  | some p =>
      match p.ytmusic_playlist_id with
      | none => none
      | some s => if s = "" then none else some s

/-- `next((p["name"] for p in playlists if p["key"] == key), key)`
(main.py line 117). -/
def nameFor (pls : List PlaylistCfg) (k : String) : String :=
  match (pls.find? (fun p => p.key = k)) with
  | some p => p.name
  | none => k

/-- One entry of the report's `breakdown` dict (main.py line 118). -/
structure BreakEntry where
  key : String
  name : String
  attempted : Nat
  added : Nat
deriving DecidableEq, Repr

/-- State threaded through the reconciliation loop: breakdown so far,
`total_added` so far, and the current remote membership. -/
structure RecState where
  breakdown : List BreakEntry
  total : Nat
  mem : String → Finset String

/-- One iteration of the reconciliation loop (main.py lines 112-121):
skip groups with no truthy playlist id (warning, `continue`), else add
the group's videoIds and record the breakdown entry. -/
def reconStep (pls : List PlaylistCfg) (readOk addOk : String → Bool)
    (st : RecState) (g : String × List String) : RecState :=
  match lookupPid pls g.1 with
  | none => st
  | some pid =>
      let out := add_songs_to_playlist st.mem readOk addOk pid g.2
      ⟨st.breakdown ++ [⟨g.1, nameFor pls g.1, g.2.length, out.added⟩],
       st.total + out.added, out.mem⟩

/-- main.py lines 111-121: reconcile each group with the Playlist
Store. -/
def reconcile (pls : List PlaylistCfg) (m0 : String → Finset String)
    (readOk addOk : String → Bool)
    (groups : List (String × List String)) : RecState :=
  groups.foldl (reconStep pls readOk addOk) ⟨[], 0, m0⟩

/-! ## The sync run (main.py `run_sync`). -/

/-- Everything `run_sync` reads from config files and external
collaborators: the loaded configs and cache, the fetched history, the
per-batch classifier oracle, the remote library listing used by
provisioning, and the remote membership and success oracles used by
reconciliation. -/
structure SyncEnv where
  anthropic_key : String
  playlists : List PlaylistCfg
  schedule : Schedule
  cache0 : List (String × Cat)
  history : List Song
  classify : List PromptSong → ClaudeResp
  store : RemoteStore
  membership : String → Finset String
  readOk : String → Bool
  addOk : String → Bool

/-- main.py lines 78-80: on a first run (empty cache) with no explicit
limit, fall back to `schedule.get("initial_scan_depth", 100)`. -/
def effectiveLimit (cache0 : List (String × Cat)) (sched : Schedule)
    (song_limit : Option Nat) : Option Nat :=
  if cache0 = [] ∧ song_limit = none then
    some (sched.initial_scan_depth.getD 100)
  else song_limit

/-- main.py lines 82-83: `if song_limit: songs = songs[:song_limit]` —
a limit of 0 is falsy, so no truncation happens. -/
def applyLimit (songs : List Song) : Option Nat → List Song
  | none => songs
  | some n => if n = 0 then songs else songs.take n

/-- The processed slice of history for a run. -/
def effectiveSongs (env : SyncEnv) (song_limit : Option Nat) : List Song :=
  applyLimit env.history (effectiveLimit env.cache0 env.schedule song_limit)

/-- main.py line 87: `[s for s in songs if s["videoId"] not in cache]`. -/
def newSongs (env : SyncEnv) (song_limit : Option Nat) : List Song :=
  (effectiveSongs env song_limit).filter
    (fun s => !(cacheHas env.cache0 s.videoId))

/-- main.py line 88:
`[cache[s["videoId"]] for s in songs if s["videoId"] in cache]`
(an entry is kept exactly when the lookup succeeds). -/
def cachedResults (env : SyncEnv) (song_limit : Option Nat) : List Cat :=
  (effectiveSongs env song_limit).filterMap
    (fun s => cacheLookup env.cache0 s.videoId)

/-- The batches handed to `_call_claude` in a run (categorizer.py lines
141-150, reached from main.py line 94 only when there are new songs). -/
def submittedBatches (env : SyncEnv) (song_limit : Option Nat) :
    List (List PromptSong) :=
  if newSongs env song_limit = [] then []
  else chunks20 ((newSongs env song_limit).map strip)

/-- main.py lines 92-94: classifier results for the run's new songs. -/
def newResults (env : SyncEnv) (song_limit : Option Nat) : List Cat :=
  if newSongs env song_limit = [] then []
  else categorize env.classify (newSongs env song_limit)

/-- main.py lines 95-99: merge the new results into the cache, keeping
only entries with a truthy `videoId`, then persist. -/
def cacheAfter (env : SyncEnv) (song_limit : Option Nat) :
    List (String × Cat) :=
  (newResults env song_limit).foldl
    (fun c cat =>
      match cat.videoId with
      | none => c
      | some vid => if vid = "" then c else cacheInsert c vid cat)
    env.cache0

/-- main.py line 101: `all_results = cached_results + new_results`. -/
def allResults (env : SyncEnv) (song_limit : Option Nat) : List Cat :=
  cachedResults env song_limit ++ newResults env song_limit

/-- The run's reconciliation groups (main.py lines 103-107). -/
def groupsOf (env : SyncEnv) (song_limit : Option Nat) :
    List (String × List String) :=
  groupResults env.schedule (allResults env song_limit)

/-- The success report assembled at main.py lines 124-132. -/
structure Report where
  status : String
  songs_fetched : Nat
  new_categorizations : Nat
  cached : Nat
  total_added : Nat
  breakdown : List BreakEntry
deriving DecidableEq, Repr

/-- The three return shapes of `run_sync`: a raised `RuntimeError`
(lines 52-53 and 58-59), the empty-history short-circuit report
(lines 73-75), and the success report. -/
inductive SyncOutcome where
  | configError (msg : String)
  | emptyHistory
  | success (r : Report)
deriving DecidableEq, Repr

/-- main.py lines 43-136, `run_sync`. -/
def runSync (env : SyncEnv) (song_limit : Option Nat) : SyncOutcome :=
  if env.anthropic_key = "" then
    .configError "ANTHROPIC_API_KEY not set in config/.env"
  else if env.playlists = [] then
    .configError "No playlists configured. Run setup first."
  else
    let prov := ensure_playlists env.store env.playlists
    if env.history = [] then .emptyHistory
    else
      let songs := effectiveSongs env song_limit
      let st := reconcile prov.playlists env.membership env.readOk
        env.addOk (groupsOf env song_limit)
      .success
        ⟨"success", songs.length, (newResults env song_limit).length,
         (cachedResults env song_limit).length, st.total, st.breakdown⟩

/-! ## Concrete fixtures

Small concrete configurations, used to instantiate the claim theorems
(witnesses) and to exhibit counterexamples. -/

/-- A schedule whose default playlist key is `"chill"`. -/
def schedFix : Schedule := ⟨some "chill", some 100⟩

/-- A classification with confidence 1/10 (< 0.6) whose stated target
is `"workout"`. -/
def catLowConf : Cat :=
  ⟨some "v1", none, none, none, some "workout", some (1/10), none⟩

/-- A classification whose stated target key `"nokey"` matches no
configured playlist. -/
def catOrphan : Cat :=
  ⟨some "v1", none, none, none, some "nokey", some (9/10), none⟩

/-- A classification with no `best_playlist` field at all. -/
def catNoTarget : Cat :=
  ⟨some "v2", none, none, none, none, some (9/10), none⟩

/-- A one-song history. -/
def song1 : Song := ⟨"v1", "t1", "a1", "al1", 100, "p1"⟩

/-- A second song. -/
def song2 : Song := ⟨"v2", "t2", "a2", "al2", 120, "p2"⟩

/-- A single provisioned playlist config with key `"chill"`. -/
def plsChill : List PlaylistCfg := [⟨"chill", "Chill", "d", some "PLC"⟩]

/-- An environment whose classifier returns `catOrphan` for every
batch: used to show a result with an unresolvable key is dropped. -/
def envOrphan : SyncEnv :=
  ⟨"key", plsChill, schedFix, [], [song1], fun _ => .parsed [catOrphan],
   ⟨[], 0⟩, fun _ => ∅, fun _ => true, fun _ => true⟩

/-- An environment with an empty cache and `initial_scan_depth = 0`:
`if song_limit:` treats the 0 as falsy, so no truncation happens. -/
def envDepthZero : SyncEnv :=
  ⟨"key", plsChill, ⟨some "chill", some 0⟩, [], [song1, song2],
   fun _ => .parsed [], ⟨[], 0⟩, fun _ => ∅, fun _ => true, fun _ => true⟩

/-- An environment with an empty cache and `initial_scan_depth = 1`,
so the first run truncates the two-song history to one song. -/
def envDepth1 : SyncEnv :=
  ⟨"key", plsChill, ⟨some "chill", some 1⟩, [], [song1, song2],
   fun _ => .parsed [], ⟨[], 0⟩, fun _ => ∅, fun _ => true, fun _ => true⟩

/-- An environment whose cache already holds `"v1"`; only `song2` is
new. -/
def envCached : SyncEnv :=
  ⟨"key", plsChill, schedFix, [("v1", catLowConf)], [song1, song2],
   fun _ => .parsed [], ⟨[], 0⟩, fun _ => ∅, fun _ => true, fun _ => true⟩

/-- An environment whose classifier returns a malformed (non-JSON)
payload for every batch. -/
def envMal : SyncEnv :=
  ⟨"key", plsChill, schedFix, [], [song1], fun _ => .malformed,
   ⟨[], 0⟩, fun _ => ∅, fun _ => true, fun _ => true⟩

/-- Two provisioned playlist configs. -/
def plsTwo : List PlaylistCfg :=
  [⟨"workout", "W", "d", some "PLW"⟩, ⟨"chill", "Chill", "d", some "PLC"⟩]

/-- An environment where the classified song lands in the `"workout"`
playlist and is added remotely. -/
def envAdd : SyncEnv :=
  ⟨"key", plsTwo, schedFix, [], [song1], fun _ => .parsed [catLowConf],
   ⟨[], 0⟩, fun _ => ∅, fun _ => true, fun _ => true⟩

/-! ## Helper lemmas -/

theorem add_songs_eq (m : String → Finset String) (ro ao : String → Bool)
    (pid : String) (vids : List String) :
    add_songs_to_playlist m ro ao pid vids =
      if vids = [] then ⟨0, m, false⟩
      else if vids.filter
          (fun vid => !(vid ∈ get_playlist_video_ids m ro pid)) = [] then
        ⟨0, m, false⟩
      else if ao pid then
        ⟨(vids.filter
            (fun vid => !(vid ∈ get_playlist_video_ids m ro pid))).length,
         fun p => if p = pid then m pid ∪
            (vids.filter
              (fun vid => !(vid ∈ get_playlist_video_ids m ro pid))).toFinset
          else m p,
         true⟩
      else ⟨0, m, true⟩ := rfl

theorem add_mem_other (m : String → Finset String) (ro ao : String → Bool)
    (pid : String) (vids : List String) :
    ∀ p, p ≠ pid → (add_songs_to_playlist m ro ao pid vids).mem p = m p := by
  intro p hp
  rw [add_songs_eq]
  split_ifs <;> simp [hp]

theorem add_empty (m : String → Finset String) (ro ao : String → Bool)
    (pid : String) :
    add_songs_to_playlist m ro ao pid [] = ⟨0, m, false⟩ := rfl

theorem add_contained (m : String → Finset String) (ro ao : String → Bool)
    (pid : String) (vids : List String) (hro : ro pid = true)
    (hall : ∀ v ∈ vids, v ∈ m pid) :
    add_songs_to_playlist m ro ao pid vids = ⟨0, m, false⟩ := by
  rw [add_songs_eq]
  have hni : vids.filter
      (fun vid => !(vid ∈ get_playlist_video_ids m ro pid)) = [] := by
    rw [List.filter_eq_nil_iff]
    intro v hv
    unfold get_playlist_video_ids
    rw [if_pos hro]
    simpa using hall v hv
  split_ifs <;> simp_all

theorem add_mem_subset (m : String → Finset String) (ro ao : String → Bool)
    (pid : String) (vids : List String) :
    ∀ v ∈ (add_songs_to_playlist m ro ao pid vids).mem pid,
      v ∈ m pid ∨ v ∈ vids.toFinset := by
  intro v hv
  rw [add_songs_eq] at hv
  split_ifs at hv
  · exact Or.inl hv
  · exact Or.inl hv
  · dsimp only at hv
    rw [if_pos rfl, Finset.mem_union] at hv
    rcases hv with hv | hv
    · exact Or.inl hv
    · rw [List.mem_toFinset] at hv
      exact Or.inr (List.mem_toFinset.mpr (List.mem_filter.mp hv).1)
  · exact Or.inl hv

theorem add_card_bound (m : String → Finset String) (ro ao : String → Bool)
    (pid : String) (vids : List String) :
    ((add_songs_to_playlist m ro ao pid vids).mem pid).card ≤
      (m pid).card + (vids.toFinset \ m pid).card := by
  rw [add_songs_eq]
  split_ifs
  · exact Nat.le_add_right _ _
  · exact Nat.le_add_right _ _
  · show (if pid = pid then _ else _ : Finset String).card ≤ _
    rw [if_pos rfl]
    set new_ids := vids.filter
      (fun vid => !(vid ∈ get_playlist_video_ids m ro pid)) with hni
    have hsub : new_ids.toFinset \ m pid ⊆ vids.toFinset \ m pid := by
      apply Finset.sdiff_subset_sdiff _ le_rfl
      intro v hv
      rw [List.mem_toFinset] at hv ⊢
      exact (List.mem_filter.mp hv).1
    calc (m pid ∪ new_ids.toFinset).card
        = (m pid ∪ (new_ids.toFinset \ m pid)).card := by
          rw [Finset.union_sdiff_self_eq_union]
      _ ≤ (m pid).card + (new_ids.toFinset \ m pid).card :=
          Finset.card_union_le _ _
      _ ≤ (m pid).card + (vids.toFinset \ m pid).card :=
          Nat.add_le_add_left (Finset.card_le_card hsub) _
  · exact Nat.le_add_right _ _

/-! ## C4: dedup on add -/

/-- C4: `add_songs_to_playlist` submits only identifiers not already in
the membership it read, so the remote membership count increase is
bounded by `|trackIds \ existingMembership|` (first and second
conjuncts; other playlists are untouched, third conjunct); an empty
input returns `addedCount = 0` without the remote add call (fourth
conjunct); and, when the membership read succeeds, an input entirely
contained in the existing membership also returns `addedCount = 0`
without the remote add call (fifth conjunct). -/
theorem C4_addTracks_dedup (m : String → Finset String)
    (readOk addOk : String → Bool) (pid : String) (vids : List String) :
    ((add_songs_to_playlist m readOk addOk pid vids).mem pid).card ≤
        (m pid).card + (vids.toFinset \ m pid).card
    ∧ (∀ v ∈ (add_songs_to_playlist m readOk addOk pid vids).mem pid,
        v ∈ m pid ∨ v ∈ vids.toFinset)
    ∧ (∀ p, p ≠ pid →
        (add_songs_to_playlist m readOk addOk pid vids).mem p = m p)
    ∧ (vids = [] →
        add_songs_to_playlist m readOk addOk pid vids = ⟨0, m, false⟩)
    ∧ (readOk pid = true → (∀ v ∈ vids, v ∈ m pid) →
        add_songs_to_playlist m readOk addOk pid vids = ⟨0, m, false⟩) :=
  ⟨add_card_bound m readOk addOk pid vids,
   add_mem_subset m readOk addOk pid vids,
   add_mem_other m readOk addOk pid vids,
   fun h => h ▸ add_empty m readOk addOk pid,
   fun hro hall => add_contained m readOk addOk pid vids hro hall⟩

/-- Witness for C4 at concrete inputs: playlist `"P"` already holds
`"a"`; the empty-input and the entirely-already-present short-circuits
are obtained by applying `C4_addTracks_dedup` with its hypotheses
discharged there, and the membership bound is checked at `["a", "b"]`. -/
theorem C4_witness :
    (add_songs_to_playlist (fun _ => ({"a"} : Finset String))
        (fun _ => true) (fun _ => true) "P" []
      = ⟨0, fun _ => {"a"}, false⟩)
    ∧ (add_songs_to_playlist (fun _ => ({"a"} : Finset String))
        (fun _ => true) (fun _ => true) "P" ["a"]
      = ⟨0, fun _ => {"a"}, false⟩)
    ∧ (((add_songs_to_playlist (fun _ => ({"a"} : Finset String))
        (fun _ => true) (fun _ => true) "P" ["a", "b"]).mem "P").card ≤
      ({"a"} : Finset String).card +
        ((["a", "b"] : List String).toFinset \ {"a"}).card) :=
  ⟨(C4_addTracks_dedup (fun _ => {"a"}) (fun _ => true)
      (fun _ => true) "P" []).2.2.2.1 rfl,
   (C4_addTracks_dedup (fun _ => {"a"}) (fun _ => true)
      (fun _ => true) "P" ["a"]).2.2.2.2 rfl (by decide),
   (C4_addTracks_dedup (fun _ => {"a"}) (fun _ => true)
      (fun _ => true) "P" ["a", "b"]).1⟩

/-! ## C6: provisioning idempotence -/

/-- A freshly created playlist id `"PL" ++ n` is never empty. -/
theorem created_id_ne_empty (s : String) : "PL" ++ s ≠ "" := by
  intro h
  have h1 : ("PL" ++ s).length = ("" : String).length := by rw [h]
  rw [String.length_append] at h1
  have hPL : ("PL" : String).length = 2 := rfl
  have hE : ("" : String).length = 0 := rfl
  omega

/-- Invariant of the `ensure_playlists` fold: if every remote playlist
id is non-empty, then afterwards every config carries a truthy id and
every remote id is still non-empty. -/
theorem ensure_invariant (pls : List PlaylistCfg) :
    ∀ acc : ProvisionResult,
      (∀ p ∈ acc.playlists, truthyOpt p.ytmusic_playlist_id = true) →
      (∀ pr ∈ acc.store.playlists, pr.2 ≠ "") →
      (∀ p ∈ (pls.foldl ensureStep acc).playlists,
          truthyOpt p.ytmusic_playlist_id = true)
      ∧ (∀ pr ∈ (pls.foldl ensureStep acc).store.playlists, pr.2 ≠ "") := by
  induction pls with
  | nil => intro acc h1 h2; exact ⟨h1, h2⟩
  | cons p rest ih =>
    intro acc h1 h2
    rw [List.foldl_cons]
    by_cases ht : truthyOpt p.ytmusic_playlist_id = true
    · apply ih
      · intro q hq
        rw [show ensureStep acc p = ⟨acc.playlists ++ [p], acc.store,
              acc.creates⟩ by unfold ensureStep; rw [if_pos ht]] at hq
        rcases List.mem_append.mp hq with h | h
        · exact h1 q h
        · rw [List.mem_singleton] at h; subst h; exact ht
      · intro pr hpr
        rw [show ensureStep acc p = ⟨acc.playlists ++ [p], acc.store,
              acc.creates⟩ by unfold ensureStep; rw [if_pos ht]] at hpr
        exact h2 pr hpr
    · unfold ensureStep
      rw [if_neg ht]
      cases hf : find_playlist_by_name acc.store p.name with
      | some eid =>
        apply ih
        · intro q hq
          rcases List.mem_append.mp hq with h | h
          · exact h1 q h
          · rw [List.mem_singleton] at h; subst h
            have heid : eid ≠ "" := by
              unfold find_playlist_by_name at hf
              rcases Option.map_eq_some'.mp hf with ⟨pr, hpr, hpr2⟩
              have := h2 pr (List.mem_of_mem_take (List.mem_of_find?_eq_some hpr))
              rw [hpr2] at this; exact this
            simp [truthyOpt, heid]
        · intro pr hpr; exact h2 pr hpr
      | none =>
        apply ih
        · intro q hq
          rcases List.mem_append.mp hq with h | h
          · exact h1 q h
          · rw [List.mem_singleton] at h; subst h
            simp [create_playlist, truthyOpt, created_id_ne_empty]
        · intro pr hpr
          simp only [create_playlist] at hpr
          rcases List.mem_cons.mp hpr with h | h
          · subst h; exact created_id_ne_empty _
          · exact h2 pr h

/-- If every config already carries a truthy remote id, the
`ensure_playlists` fold changes nothing and creates nothing. -/
theorem ensure_all_truthy (pls : List PlaylistCfg) :
    ∀ acc : ProvisionResult,
      (∀ p ∈ pls, truthyOpt p.ytmusic_playlist_id = true) →
      pls.foldl ensureStep acc =
        ⟨acc.playlists ++ pls, acc.store, acc.creates⟩ := by
  induction pls with
  | nil => intro acc _; simp
  | cons p rest ih =>
    intro acc hall
    rw [List.foldl_cons]
    rw [show ensureStep acc p = ⟨acc.playlists ++ [p], acc.store,
          acc.creates⟩ by
        unfold ensureStep; rw [if_pos (hall p (List.mem_cons_self p rest))]]
    rw [ih _ (fun q hq => hall q (List.mem_cons_of_mem p hq))]
    simp

/-- C6: provisioning is idempotent.  If every remote playlist id in the
library is non-empty (as real YT Music ids are), then running
`ensure_playlists` a second time, on the configs and store produced by
the first run, changes no config, touches no remote state, and issues
no create call. -/
theorem C6_provision_idempotent (store : RemoteStore)
    (cfgs : List PlaylistCfg)
    (hst : ∀ pr ∈ store.playlists, pr.2 ≠ "") :
    ensure_playlists (ensure_playlists store cfgs).store
        (ensure_playlists store cfgs).playlists =
      ⟨(ensure_playlists store cfgs).playlists,
       (ensure_playlists store cfgs).store, []⟩ := by
  have hinv := ensure_invariant cfgs ⟨[], store, []⟩
    (by intro p hp; simp at hp) hst
  unfold ensure_playlists
  rw [ensure_all_truthy _ _ hinv.1]
  simp

/-- Witness for C6: a library holding `("Chill", "X")` and two configs,
one matching by name and one requiring a create; the second provision
run is checked to be a no-op by applying `C6_provision_idempotent`. -/
theorem C6_witness :
    ensure_playlists
        (ensure_playlists ⟨[("Chill", "X")], 0⟩
          [⟨"chill", "Chill", "d", none⟩, ⟨"focus", "Focus", "d", none⟩]).store
        (ensure_playlists ⟨[("Chill", "X")], 0⟩
          [⟨"chill", "Chill", "d", none⟩, ⟨"focus", "Focus", "d", none⟩]).playlists =
      ⟨(ensure_playlists ⟨[("Chill", "X")], 0⟩
          [⟨"chill", "Chill", "d", none⟩, ⟨"focus", "Focus", "d", none⟩]).playlists,
       (ensure_playlists ⟨[("Chill", "X")], 0⟩
          [⟨"chill", "Chill", "d", none⟩, ⟨"focus", "Focus", "d", none⟩]).store, []⟩ :=
  C6_provision_idempotent ⟨[("Chill", "X")], 0⟩
    [⟨"chill", "Chill", "d", none⟩, ⟨"focus", "Focus", "d", none⟩]
    (by decide)


/-! ## Grouping and cache lemmas -/

theorem cacheHas_iff (c : List (String × Cat)) (k : String) :
    cacheHas c k = true ↔ ∃ kv ∈ c, kv.1 = k := by
  simp [cacheHas]

theorem cacheHas_insert_cases (c : List (String × Cat)) (kk k : String)
    (v : Cat) (h : cacheHas (cacheInsert c kk v) k = true) :
    cacheHas c k = true ∨ k = kk := by
  unfold cacheInsert at h
  split_ifs at h with hp
  · rcases (cacheHas_iff _ _).mp h with ⟨kv, hkv, hk⟩
    rcases List.mem_map.mp hkv with ⟨kv0, hkv0, hf⟩
    by_cases h0 : kv0.1 = kk
    · rw [if_pos h0] at hf
      right
      rw [← hk, ← hf]
    · rw [if_neg h0] at hf
      left
      exact (cacheHas_iff _ _).mpr ⟨kv0, hkv0, hf ▸ hk⟩
  · rcases (cacheHas_iff _ _).mp h with ⟨kv, hkv, hk⟩
    rcases List.mem_append.mp hkv with h1 | h1
    · exact Or.inl ((cacheHas_iff _ _).mpr ⟨kv, h1, hk⟩)
    · right
      rw [List.mem_singleton] at h1
      rw [← hk, h1]
  
theorem cacheHas_insert_mono (c : List (String × Cat)) (kk k : String)
    (v : Cat) (h : cacheHas c k = true) :
    cacheHas (cacheInsert c kk v) k = true := by
  rcases (cacheHas_iff _ _).mp h with ⟨kv, hkv, hk⟩
  unfold cacheInsert
  split_ifs with hp
  · apply (cacheHas_iff _ _).mpr
    by_cases h0 : kv.1 = kk
    · exact ⟨(kk, v), List.mem_map.mpr ⟨kv, hkv, by rw [if_pos h0]⟩,
        by rw [← hk, ← h0]⟩
    · exact ⟨kv, List.mem_map.mpr ⟨kv, hkv, by rw [if_neg h0]⟩, hk⟩
  · exact (cacheHas_iff _ _).mpr ⟨kv, List.mem_append_left _ hkv, hk⟩

/-- The per-result cache-merge step of main.py lines 96-99. -/
def mergeStep (c : List (String × Cat)) (cat : Cat) :
    List (String × Cat) :=
  match cat.videoId with
  | none => c
  | some vid => if vid = "" then c else cacheInsert c vid cat

theorem cacheAfter_eq_merge (env : SyncEnv) (l : Option Nat) :
    cacheAfter env l = (newResults env l).foldl mergeStep env.cache0 := rfl

theorem merge_mono (rs : List Cat) :
    ∀ (c0 : List (String × Cat)) (t : String), cacheHas c0 t = true →
      cacheHas (rs.foldl mergeStep c0) t = true := by
  induction rs with
  | nil => intro c0 t h; exact h
  | cons cat rest ih =>
    intro c0 t h
    rw [List.foldl_cons]
    apply ih
    cases hv : cat.videoId with
    | none => simpa [mergeStep, hv] using h
    | some vid =>
      simp only [mergeStep, hv]
      split_ifs with he
      · exact h
      · exact cacheHas_insert_mono _ _ _ _ h

theorem merge_new_keys (rs : List Cat) :
    ∀ (c0 : List (String × Cat)) (t : String),
      cacheHas (rs.foldl mergeStep c0) t = true →
      cacheHas c0 t = true ∨ ∃ c ∈ rs, c.videoId = some t ∧ t ≠ "" := by
  induction rs with
  | nil => intro c0 t h; exact Or.inl h
  | cons cat rest ih =>
    intro c0 t h
    rw [List.foldl_cons] at h
    rcases ih _ _ h with h1 | ⟨c, hc, hvid⟩
    · cases hv : cat.videoId with
      | none => simp only [mergeStep, hv] at h1; exact Or.inl h1
      | some vid =>
        simp only [mergeStep, hv] at h1
        split_ifs at h1 with he
        · exact Or.inl h1
        · rcases cacheHas_insert_cases _ _ _ _ h1 with h2 | h2
          · exact Or.inl h2
          · exact Or.inr ⟨cat, List.mem_cons_self _ _, by rw [hv, h2], h2 ▸ he⟩
    · exact Or.inr ⟨c, List.mem_cons_of_mem _ hc, hvid⟩

theorem addToGroups_inv (P : String → Prop) (V : String → Prop) :
    ∀ (gs : List (String × List String)) (k v : String),
      (∀ kv ∈ gs, P kv.1 ∧ ∀ x ∈ kv.2, V x) → P k → V v →
      ∀ kv ∈ addToGroups gs k v, P kv.1 ∧ ∀ x ∈ kv.2, V x := by
  intro gs
  induction gs with
  | nil =>
    intro k v _ hP hV kv hkv
    rw [addToGroups, List.mem_singleton] at hkv
    subst hkv
    exact ⟨hP, fun x hx => by rw [List.mem_singleton] at hx; exact hx ▸ hV⟩
  | cons g rest ih =>
    intro k v hinv hP hV kv hkv
    rw [addToGroups] at hkv
    split_ifs at hkv with hk
    · rcases List.mem_cons.mp hkv with h | h
      · subst h
        refine ⟨(hinv g (List.mem_cons_self _ _)).1, fun x hx => ?_⟩
        rcases List.mem_append.mp hx with h1 | h1
        · exact (hinv g (List.mem_cons_self _ _)).2 x h1
        · rw [List.mem_singleton] at h1; exact h1 ▸ hV
      · exact hinv kv (List.mem_cons_of_mem _ h)
    · rcases List.mem_cons.mp hkv with h | h
      · exact h ▸ hinv g (List.mem_cons_self _ _)
      · exact ih k v (fun kv0 hkv0 => hinv kv0 (List.mem_cons_of_mem _ hkv0))
          hP hV kv h

theorem groupResults_inv (sched : Schedule) (rs : List Cat) :
    ∀ kv ∈ groupResults sched rs,
      kv.1 ≠ "" ∧ ∀ v ∈ kv.2, v ≠ "" ∧ ∃ c ∈ rs, c.videoId = some v := by
  have main : ∀ (rs' : List Cat) (gs : List (String × List String)),
      (∀ c ∈ rs', c ∈ rs) →
      (∀ kv ∈ gs, kv.1 ≠ "" ∧ ∀ v ∈ kv.2,
          v ≠ "" ∧ ∃ c ∈ rs, c.videoId = some v) →
      ∀ kv ∈ rs'.foldl (groupStep sched) gs,
        kv.1 ≠ "" ∧ ∀ v ∈ kv.2, v ≠ "" ∧ ∃ c ∈ rs, c.videoId = some v := by
    intro rs'
    induction rs' with
    | nil => intro gs _ hinv kv hkv; exact hinv kv hkv
    | cons c rest ih =>
      intro gs hsub hinv kv hkv
      rw [List.foldl_cons] at hkv
      refine ih _ (fun x hx => hsub x (List.mem_cons_of_mem _ hx)) ?_ kv hkv
      intro kv0 hkv0
      cases hv : c.videoId with
      | none => simp only [groupStep, hv] at hkv0; exact hinv kv0 hkv0
      | some vid =>
        simp only [groupStep, hv] at hkv0
        split_ifs at hkv0 with hcond
        · exact hinv kv0 hkv0
        · push_neg at hcond
          exact addToGroups_inv (fun k => k ≠ "")
            (fun v => v ≠ "" ∧ ∃ c ∈ rs, c.videoId = some v) gs
            (resolvedKey sched c) vid hinv hcond.2
            ⟨hcond.1, c, hsub c (List.mem_cons_self _ _), hv⟩ kv0 hkv0
  exact main rs [] (fun c h => h) (fun kv h => absurd h (List.not_mem_nil kv))

theorem reconcile_mem (pls : List PlaylistCfg)
    (ro ao : String → Bool) :
    ∀ (groups : List (String × List String)) (st : RecState),
      ∀ e ∈ (groups.foldl (reconStep pls ro ao) st).breakdown,
        e ∈ st.breakdown ∨
          ∃ g ∈ groups, ∃ pid, lookupPid pls g.1 = some pid ∧
            e.key = g.1 ∧ e.name = nameFor pls g.1 ∧
            e.attempted = g.2.length := by
  intro groups
  induction groups with
  | nil => intro st e he; exact Or.inl he
  | cons g rest ih =>
    intro st e he
    rw [List.foldl_cons] at he
    rcases ih _ e he with h1 | ⟨g0, hg0, pid, hpid, hk, hn, ha⟩
    · unfold reconStep at h1
      cases hl : lookupPid pls g.1 with
      | none => rw [hl] at h1; exact Or.inl h1
      | some pid =>
        rw [hl] at h1
        dsimp only at h1
        rcases List.mem_append.mp h1 with h2 | h2
        · exact Or.inl h2
        · rw [List.mem_singleton] at h2
          subst h2
          exact Or.inr ⟨g, List.mem_cons_self _ _, pid, hl, rfl, rfl, rfl⟩
    · exact Or.inr ⟨g0, List.mem_cons_of_mem _ hg0, pid, hpid, hk, hn, ha⟩

/-! ## runSync inversion -/

/-- When the configuration checks pass and history is non-empty,
`runSync` returns the success report built from the pipeline stages. -/
theorem runSync_success_eq (env : SyncEnv) (l : Option Nat)
    (h1 : ¬env.anthropic_key = "") (h2 : ¬env.playlists = [])
    (h3 : ¬env.history = []) :
    runSync env l = .success
      ⟨"success", (effectiveSongs env l).length,
       (newResults env l).length, (cachedResults env l).length,
       (reconcile (ensure_playlists env.store env.playlists).playlists
         env.membership env.readOk env.addOk (groupsOf env l)).total,
       (reconcile (ensure_playlists env.store env.playlists).playlists
         env.membership env.readOk env.addOk (groupsOf env l)).breakdown⟩ := by
  simp only [runSync, if_neg h1, if_neg h2, if_neg h3]

/-- Any success report of `runSync` is the one built from the pipeline
stages. -/
theorem runSync_success_inv (env : SyncEnv) (l : Option Nat) (r : Report)
    (h : runSync env l = .success r) :
    r = ⟨"success", (effectiveSongs env l).length,
         (newResults env l).length, (cachedResults env l).length,
         (reconcile (ensure_playlists env.store env.playlists).playlists
           env.membership env.readOk env.addOk (groupsOf env l)).total,
         (reconcile (ensure_playlists env.store env.playlists).playlists
           env.membership env.readOk env.addOk (groupsOf env l)).breakdown⟩ := by
  simp only [runSync] at h
  split_ifs at h with h1 h2 h3
  injection h with h4
  exact h4.symm

/-! ## C1: confidence fallback -/

/-- C1 counterexample: `catLowConf` has confidence 1/10 < 0.6 and
stated target `"workout"`, the configured default key is `"chill"`,
yet reconciliation grouping files it under `"workout"` — not under the
default, contradicting the claim that any result with confidence < 0.6
resolves to the default collection key. -/
theorem C1_counterexample :
    (1 / 10 : ℚ) < 6 / 10
    ∧ catLowConf.confidence = some (1 / 10)
    ∧ catLowConf.best_playlist = some "workout"
    ∧ schedFix.default_playlist = some "chill"
    ∧ groupResults schedFix [catLowConf] = [("workout", ["v1"])] :=
  ⟨by norm_num, rfl, rfl, rfl, rfl⟩

/-- C1 amended: reconciliation grouping never consults the confidence
field — the grouping is invariant under arbitrary rewrites of every
result's confidence — and a result with a present `best_playlist` key
is always grouped under that stated target; the default key is used
only when `best_playlist` is absent (the confidence-below-0.6 policy
lives only in the prompt text handed to the classifier). -/
theorem C1_grouping_ignores_confidence :
    (∀ (sched : Schedule) (results : List Cat) (f : Cat → Option ℚ),
      groupResults sched
          (results.map (fun c => { c with confidence := f c }))
        = groupResults sched results)
    ∧ (∀ (sched : Schedule) (c : Cat) (k : String),
        c.best_playlist = some k → resolvedKey sched c = k) := by
  constructor
  · intro sched results f
    unfold groupResults
    rw [List.foldl_map]
    apply List.foldl_ext
    intro acc c _
    rfl
  · intro sched c k h
    unfold resolvedKey
    rw [h]
    rfl

/-- Witness for the amended C1 at concrete inputs: rewriting
`catLowConf`'s confidence from 1/10 to 99/100 leaves the grouping
unchanged, and its stated target `"workout"` is where it resolves. -/
theorem C1_witness :
    groupResults schedFix
        ([catLowConf].map (fun c => { c with confidence := some (99 / 100) }))
      = groupResults schedFix [catLowConf]
    ∧ resolvedKey schedFix catLowConf = "workout" :=
  ⟨C1_grouping_ignores_confidence.1 schedFix [catLowConf]
      (fun _ => some (99 / 100)),
   C1_grouping_ignores_confidence.2 schedFix catLowConf "workout" rfl⟩

/-! ## C2: default grouping and unresolvable targets -/

/-- C2 counterexample: in `envOrphan` the classifier's result states
target `"nokey"`, which has no configured playlist (no remote id
resolves).  The claim says such a result is grouped under the default
key `"chill"` and handed to the Playlist Store; instead the run groups
it under `"nokey"` and reconciliation drops that group: the success
report has an empty breakdown and nothing was added anywhere. -/
theorem C2_counterexample :
    groupsOf envOrphan none = [("nokey", ["v1"])]
    ∧ envOrphan.schedule.default_playlist = some "chill"
    ∧ lookupPid envOrphan.playlists "nokey" = none
    ∧ runSync envOrphan none = .success ⟨"success", 1, 1, 0, 0, []⟩ :=
  ⟨rfl, rfl, rfl, rfl⟩

/-- C2 amended: a result whose `best_playlist` key is absent is grouped
under the ScheduleConfig default key (first conjunct); but a group
whose key resolves to no remote playlist id is skipped by
reconciliation — dropped with a warning, not re-grouped under the
default — so every breakdown entry's key has a resolvable id (second
conjunct). -/
theorem C2_default_and_skip :
    (∀ (sched : Schedule) (c : Cat), c.best_playlist = none →
        resolvedKey sched c = sched.default_playlist.getD "")
    ∧ (∀ (pls : List PlaylistCfg) (m0 : String → Finset String)
        (ro ao : String → Bool) (groups : List (String × List String)),
        ∀ e ∈ (reconcile pls m0 ro ao groups).breakdown,
          lookupPid pls e.key ≠ none) := by
  constructor
  · intro sched c h
    unfold resolvedKey
    rw [h]
    rfl
  · intro pls m0 ro ao groups e he
    rcases reconcile_mem pls ro ao groups ⟨[], 0, m0⟩ e he with h1 | h1
    · exact absurd h1 (List.not_mem_nil e)
    · rcases h1 with ⟨g, _, pid, hpid, hk, _, _⟩
      rw [hk, hpid]
      exact Option.some_ne_none pid

/-- Witness for the amended C2: `catNoTarget` (no `best_playlist`)
resolves to the default key `"chill"`, and the breakdown entry produced
for the group `("chill", ["v1"])` indeed has a resolvable playlist
id. -/
theorem C2_witness :
    resolvedKey schedFix catNoTarget = "chill"
    ∧ lookupPid plsChill
        (⟨"chill", "Chill", 1, 1⟩ : BreakEntry).key ≠ none :=
  ⟨C2_default_and_skip.1 schedFix catNoTarget rfl,
   C2_default_and_skip.2 plsChill (fun _ => ∅) (fun _ => true)
     (fun _ => true) [("chill", ["v1"])] ⟨"chill", "Chill", 1, 1⟩
     (by decide)⟩

/-! ## C10: silent exclusion at the grouping boundary -/

/-- C10: every parsed classifier result is counted in
`new_categorizations` (first conjunct: the count is the full length of
`newResults`, vid-less results included); only results carrying a
non-empty `videoId` ever reach the cache (second conjunct); and every
reconciliation group has a non-empty key and contains only non-empty
videoIds coming from some result, so a result lacking a videoId, or
resolving to an empty key, joins no group and contributes to no
collection's counts (third conjunct). -/
theorem C10_silent_exclusion :
    (∀ (env : SyncEnv) (l : Option Nat) (r : Report),
        runSync env l = .success r →
        r.new_categorizations = (newResults env l).length)
    ∧ (∀ (env : SyncEnv) (l : Option Nat) (t : String),
        cacheHas (cacheAfter env l) t = true →
        cacheHas env.cache0 t = true ∨
          ∃ c ∈ newResults env l, c.videoId = some t ∧ t ≠ "")
    ∧ (∀ (env : SyncEnv) (l : Option Nat),
        ∀ kv ∈ groupsOf env l, kv.1 ≠ "" ∧
          ∀ v ∈ kv.2, v ≠ "" ∧ ∃ c ∈ allResults env l, c.videoId = some v) := by
  refine ⟨?_, ?_, ?_⟩
  · intro env l r h
    rw [runSync_success_inv env l r h]
  · intro env l t h
    rw [cacheAfter_eq_merge] at h
    exact merge_new_keys _ _ _ h
  · intro env l kv hkv
    exact groupResults_inv env.schedule (allResults env l) kv hkv

/-- Witness for C10 at `envOrphan`: the orphan result is counted in
`new_categorizations`, its cache entry traces back to a result with a
non-empty videoId, and the group `("nokey", ["v1"])` satisfies the
grouping invariant. -/
theorem C10_witness :
    ((⟨"success", 1, 1, 0, 0, []⟩ : Report).new_categorizations
      = (newResults envOrphan none).length)
    ∧ (cacheHas envOrphan.cache0 "v1" = true ∨
        ∃ c ∈ newResults envOrphan none, c.videoId = some "v1" ∧ "v1" ≠ "")
    ∧ ((("nokey", ["v1"]) : String × List String).1 ≠ "" ∧
        ∀ v ∈ (("nokey", ["v1"]) : String × List String).2, v ≠ "" ∧
          ∃ c ∈ allResults envOrphan none, c.videoId = some v) :=
  ⟨C10_silent_exclusion.1 envOrphan none ⟨"success", 1, 1, 0, 0, []⟩ rfl,
   C10_silent_exclusion.2.1 envOrphan none "v1" rfl,
   C10_silent_exclusion.2.2 envOrphan none ("nokey", ["v1"]) (by decide)⟩


/-! ## C8: scope / effective limit -/

/-- C8 counterexample: in `envDepthZero` the cache is empty, no
explicit limit is given and `initial_scan_depth = 0`, yet the run
processes both fetched tracks instead of `min 0 2 = 0`: Python's
`if song_limit:` treats the 0 as falsy and skips truncation. -/
theorem C8_counterexample :
    envDepthZero.cache0 = []
    ∧ envDepthZero.schedule.initial_scan_depth = some 0
    ∧ envDepthZero.history.length = 2
    ∧ (effectiveSongs envDepthZero none).length = 2
    ∧ min 0 envDepthZero.history.length = 0 :=
  ⟨rfl, rfl, rfl, rfl, rfl⟩

/-- C8 amended: with an empty cache and no explicit limit the run
processes `min(initial_scan_depth, fetched)` tracks — except that a
zero depth is treated as "no limit" and processes all fetched tracks
(first conjunct; an absent depth defaults to 100).  An explicit
non-zero limit `n` processes `min(n, fetched)` (second conjunct), an
explicit limit 0 processes all fetched tracks (third conjunct), and a
non-empty cache with no explicit limit processes all fetched tracks
(fourth conjunct). -/
theorem C8_effective_scope (env : SyncEnv) (l : Option Nat) :
    (env.cache0 = [] → l = none →
      (effectiveSongs env l).length =
        if env.schedule.initial_scan_depth.getD 100 = 0
        then env.history.length
        else min (env.schedule.initial_scan_depth.getD 100)
          env.history.length)
    ∧ (∀ n, l = some n → n ≠ 0 →
        (effectiveSongs env l).length = min n env.history.length)
    ∧ (l = some 0 → (effectiveSongs env l).length = env.history.length)
    ∧ (env.cache0 ≠ [] → l = none →
        (effectiveSongs env l).length = env.history.length) := by
  refine ⟨?_, ?_, ?_, ?_⟩
  · intro hc hl
    subst hl
    unfold effectiveSongs effectiveLimit
    rw [if_pos ⟨hc, rfl⟩]
    simp only [applyLimit]
    split_ifs with h0
    · rfl
    · exact List.length_take _ _
  · intro n hl hn
    subst hl
    unfold effectiveSongs effectiveLimit
    rw [if_neg (fun hand => Option.some_ne_none n hand.2)]
    simp only [applyLimit]
    rw [if_neg hn]
    exact List.length_take _ _
  · intro hl
    subst hl
    unfold effectiveSongs effectiveLimit
    rw [if_neg (fun hand => Option.some_ne_none 0 hand.2)]
    simp only [applyLimit]
    simp
  · intro hc hl
    subst hl
    unfold effectiveSongs effectiveLimit
    rw [if_neg (fun hand => hc hand.1)]
    rfl

/-- Witness for the amended C8: `envDepth1` (depth 1, two songs)
processes one song on a first run, `min 2 2 = 2` songs under an
explicit limit 2, all songs under an explicit limit 0, and `envCached`
(non-empty cache, no limit) processes both songs. -/
theorem C8_witness :
    ((effectiveSongs envDepth1 none).length =
      if envDepth1.schedule.initial_scan_depth.getD 100 = 0
      then envDepth1.history.length
      else min (envDepth1.schedule.initial_scan_depth.getD 100)
        envDepth1.history.length)
    ∧ (effectiveSongs envDepth1 (some 2)).length
        = min 2 envDepth1.history.length
    ∧ (effectiveSongs envDepth1 (some 0)).length
        = envDepth1.history.length
    ∧ (effectiveSongs envCached none).length
        = envCached.history.length :=
  ⟨(C8_effective_scope envDepth1 none).1 rfl rfl,
   (C8_effective_scope envDepth1 (some 2)).2.1 2 rfl (by decide),
   (C8_effective_scope envDepth1 (some 0)).2.2.1 rfl,
   (C8_effective_scope envCached none).2.2.2 (by decide) rfl⟩

/-! ## Batch lemmas (for C3 and C5) -/

theorem chunks20Go_sub {α : Type} :
    ∀ (fuel : Nat) (l : List α) (b : List α), b ∈ chunks20Go fuel l →
      ∀ x ∈ b, x ∈ l := by
  intro fuel
  induction fuel with
  | zero =>
    intro l b hb
    cases l with
    | nil => exact absurd hb (List.not_mem_nil b)
    | cons a t => exact absurd hb (List.not_mem_nil b)
  | succ fuel ih =>
    intro l b hb x hx
    cases l with
    | nil => exact absurd hb (List.not_mem_nil b)
    | cons a t =>
      rcases List.mem_cons.mp hb with h | h
      · exact List.mem_of_mem_take (h ▸ hx)
      · exact List.mem_of_mem_drop (ih _ b h x hx)

theorem chunks20Go_len {α : Type} :
    ∀ (fuel : Nat) (l : List α) (b : List α), b ∈ chunks20Go fuel l →
      b.length ≤ 20 := by
  intro fuel
  induction fuel with
  | zero =>
    intro l b hb
    cases l with
    | nil => exact absurd hb (List.not_mem_nil b)
    | cons a t => exact absurd hb (List.not_mem_nil b)
  | succ fuel ih =>
    intro l b hb
    cases l with
    | nil => exact absurd hb (List.not_mem_nil b)
    | cons a t =>
      rcases List.mem_cons.mp hb with h | h
      · rw [h, List.length_take]
        exact min_le_left _ _
      · exact ih _ b h

theorem chunks20Go_cover {α : Type} :
    ∀ (fuel : Nat) (l : List α) (x : α), l.length ≤ fuel → x ∈ l →
      ∃ b ∈ chunks20Go fuel l, x ∈ b := by
  intro fuel
  induction fuel with
  | zero =>
    intro l x hlen hx
    rw [Nat.le_zero, List.length_eq_zero] at hlen
    subst hlen
    exact absurd hx (List.not_mem_nil x)
  | succ fuel ih =>
    intro l x hlen hx
    cases l with
    | nil => exact absurd hx (List.not_mem_nil x)
    | cons a t =>
      rcases List.mem_append.mp
          ((List.take_append_drop 20 (a :: t)) ▸ hx) with h | h
      · exact ⟨(a :: t).take 20, List.mem_cons_self _ _, h⟩
      · have hlen2 : ((a :: t).drop 20).length ≤ fuel := by
          rw [List.length_drop]
          simp only [List.length_cons] at hlen
          simp only [List.length_cons]
          omega
        rcases ih _ x hlen2 h with ⟨b, hb, hxb⟩
        exact ⟨b, List.mem_cons_of_mem _ hb, hxb⟩

theorem mem_of_mem_chunks20 {α : Type} (l : List α) (b : List α)
    (hb : b ∈ chunks20 l) : ∀ x ∈ b, x ∈ l :=
  chunks20Go_sub l.length l b hb

theorem length_le_of_mem_chunks20 {α : Type} (l : List α) (b : List α)
    (hb : b ∈ chunks20 l) : b.length ≤ 20 :=
  chunks20Go_len l.length l b hb

theorem exists_chunk20 {α : Type} (l : List α) (x : α) (hx : x ∈ l) :
    ∃ b ∈ chunks20 l, x ∈ b :=
  chunks20Go_cover l.length l x le_rfl hx

/-- A song is in `newSongs` iff it is processed and uncached. -/
theorem mem_newSongs (env : SyncEnv) (l : Option Nat) (s : Song) :
    s ∈ newSongs env l ↔
      s ∈ effectiveSongs env l ∧ cacheHas env.cache0 s.videoId = false := by
  unfold newSongs
  rw [List.mem_filter]
  simp

/-- Every member of a submitted batch is the stripped form of an
uncached processed song. -/
theorem mem_submittedBatches (env : SyncEnv) (l : Option Nat)
    (b : List PromptSong) (hb : b ∈ submittedBatches env l)
    (p : PromptSong) (hp : p ∈ b) :
    ∃ s ∈ newSongs env l, p = strip s := by
  by_cases hn : newSongs env l = []
  · rw [submittedBatches, if_pos hn] at hb
    exact absurd hb (List.not_mem_nil b)
  · rw [submittedBatches, if_neg hn] at hb
    have hx := mem_of_mem_chunks20 _ b hb p hp
    rcases List.mem_map.mp hx with ⟨s, hs, hstrip⟩
    exact ⟨s, hs, hstrip.symm⟩

/-- A track id present in the cache at run start is in no submitted
batch. -/
theorem not_submitted_of_cached (env : SyncEnv) (l : Option Nat)
    (t : String) (h : cacheHas env.cache0 t = true) :
    ∀ b ∈ submittedBatches env l, ∀ p ∈ b, p.videoId ≠ t := by
  intro b hb p hp heq
  rcases mem_submittedBatches env l b hb p hp with ⟨s, hs, hstrip⟩
  have hf : cacheHas env.cache0 s.videoId = false :=
    ((mem_newSongs env l s).mp hs).2
  have hsv : s.videoId = t := by
    rw [← heq, hstrip]
    rfl
  rw [hsv, h] at hf
  simp at hf

/-! ## C3: cache monotonicity, no re-submission -/

/-- C3: a track id present in the cache at run start is never part of
any batch submitted to the classifier in that run (first conjunct);
the cache only grows during a run (second conjunct); every submitted
batch has at most 20 tracks (third conjunct); and in any later run
whose starting cache is this run's persisted cache, a cached id is
again never submitted (fourth conjunct). -/
theorem C3_cached_never_resubmitted (env : SyncEnv) (l : Option Nat)
    (t : String) :
    (cacheHas env.cache0 t = true →
        ∀ b ∈ submittedBatches env l, ∀ p ∈ b, p.videoId ≠ t)
    ∧ (cacheHas env.cache0 t = true →
        cacheHas (cacheAfter env l) t = true)
    ∧ (∀ b ∈ submittedBatches env l, b.length ≤ 20)
    ∧ (∀ (env2 : SyncEnv) (l2 : Option Nat),
        env2.cache0 = cacheAfter env l →
        cacheHas (cacheAfter env l) t = true →
        ∀ b ∈ submittedBatches env2 l2, ∀ p ∈ b, p.videoId ≠ t) := by
  refine ⟨not_submitted_of_cached env l t, ?_, ?_, ?_⟩
  · intro h
    rw [cacheAfter_eq_merge]
    exact merge_mono _ _ _ h
  · intro b hb
    by_cases hn : newSongs env l = []
    · rw [submittedBatches, if_pos hn] at hb
      exact absurd hb (List.not_mem_nil b)
    · rw [submittedBatches, if_neg hn] at hb
      exact length_le_of_mem_chunks20 _ b hb
  · intro env2 l2 hc ht
    apply not_submitted_of_cached
    rw [hc]
    exact ht

/-- Witness for C3 at `envCached`: `"v1"` is cached, so no submitted
batch mentions it; it stays cached after the run (which is also the
cache this environment would start the next run with); and all batches
are within the size bound. -/
theorem C3_witness :
    (∀ b ∈ submittedBatches envCached none, ∀ p ∈ b, p.videoId ≠ "v1")
    ∧ cacheHas (cacheAfter envCached none) "v1" = true
    ∧ (∀ b ∈ submittedBatches envCached none, b.length ≤ 20)
    ∧ (∀ b ∈ submittedBatches envCached (some 5), ∀ p ∈ b,
        p.videoId ≠ "v1") :=
  ⟨(C3_cached_never_resubmitted envCached none "v1").1 rfl,
   (C3_cached_never_resubmitted envCached none "v1").2.1 rfl,
   (C3_cached_never_resubmitted envCached none "v1").2.2.1,
   (C3_cached_never_resubmitted envCached none "v1").2.2.2 envCached
     (some 5) rfl rfl⟩


/-! ## C5: malformed classifier response -/

/-- Every result in `newResults` comes from some submitted batch's
response. -/
theorem newResults_mem (env : SyncEnv) (l : Option Nat) (c : Cat)
    (hc : c ∈ newResults env l) :
    ∃ b ∈ submittedBatches env l, c ∈ callClaude env.classify b := by
  by_cases hn : newSongs env l = []
  · rw [newResults, if_pos hn] at hc
    exact absurd hc (List.not_mem_nil c)
  · rw [newResults, if_neg hn] at hc
    rw [categorize, if_neg hn] at hc
    rw [List.mem_flatten] at hc
    rcases hc with ⟨lb, hlb, hclb⟩
    rcases List.mem_map.mp hlb with ⟨b, hb, hcall⟩
    rw [submittedBatches, if_neg hn]
    exact ⟨b, hb, hcall ▸ hclb⟩

/-- C5: if a batch's response is malformed, `_call_claude` yields `[]`
for it (third conjunct), and — provided no other batch's response
mentions a given track id `t` of that batch (the response contract) —
no result for `t` exists this run (first conjunct), `t` stays out of
the persisted cache (second conjunct), the run still completes with a
success report whose `new_categorizations` counts only actually parsed
results (fourth conjunct), and any later run starting from this run's
cache submits `t` again whenever `t` is among its processed songs
(fifth conjunct). -/
theorem C5_malformed_batch_discarded (env : SyncEnv) (l : Option Nat)
    (b : List PromptSong) (hb : b ∈ submittedBatches env l)
    (hmal : env.classify b = .malformed) (t : String)
    (hnotc : cacheHas env.cache0 t = false)
    (hother : ∀ b2 ∈ submittedBatches env l,
        ∀ c ∈ callClaude env.classify b2, c.videoId ≠ some t) :
    (∀ c ∈ newResults env l, c.videoId ≠ some t)
    ∧ cacheHas (cacheAfter env l) t = false
    ∧ callClaude env.classify b = []
    ∧ (env.anthropic_key ≠ "" → env.playlists ≠ [] → env.history ≠ [] →
        ∃ r : Report, runSync env l = .success r ∧
          r.new_categorizations = (newResults env l).length)
    ∧ (∀ (env2 : SyncEnv) (l2 : Option Nat),
        env2.cache0 = cacheAfter env l →
        ∀ s ∈ effectiveSongs env2 l2, s.videoId = t →
          ∃ b2 ∈ submittedBatches env2 l2, strip s ∈ b2) := by
  have hno : ∀ c ∈ newResults env l, c.videoId ≠ some t := by
    intro c hc
    rcases newResults_mem env l c hc with ⟨b2, hb2, hcall⟩
    exact hother b2 hb2 c hcall
  have hcache : cacheHas (cacheAfter env l) t = false := by
    cases hca : cacheHas (cacheAfter env l) t with
    | false => rfl
    | true =>
      exfalso
      rw [cacheAfter_eq_merge] at hca
      rcases merge_new_keys _ _ _ hca with h1 | h1
      · rw [hnotc] at h1
        simp at h1
      · rcases h1 with ⟨c, hc, hvid, _⟩
        exact hno c hc hvid
  refine ⟨hno, hcache, ?_, ?_, ?_⟩
  · rw [callClaude, hmal]
  · intro h1 h2 h3
    exact ⟨_, runSync_success_eq env l h1 h2 h3, rfl⟩
  · intro env2 l2 hc2 s hs hvid
    have hnc : cacheHas env2.cache0 s.videoId = false := by
      rw [hc2, hvid]
      exact hcache
    have hmem : s ∈ newSongs env2 l2 :=
      (mem_newSongs env2 l2 s).mpr ⟨hs, hnc⟩
    have hne : newSongs env2 l2 ≠ [] := List.ne_nil_of_mem hmem
    rw [submittedBatches, if_neg hne]
    exact exists_chunk20 _ (strip s) (List.mem_map_of_mem strip hmem)

/-- Witness for C5 at `envMal`: the only batch `[strip song1]` gets a
malformed response; its results are empty, `"v1"` is absent from the
run's cache, the run completes with a success report, and a next run
starting from that cache submits `song1` again. -/
theorem C5_witness :
    (∀ c ∈ newResults envMal none, c.videoId ≠ some "v1")
    ∧ cacheHas (cacheAfter envMal none) "v1" = false
    ∧ callClaude envMal.classify [strip song1] = []
    ∧ (∃ r : Report, runSync envMal none = .success r ∧
        r.new_categorizations = (newResults envMal none).length)
    ∧ (∃ b2 ∈ submittedBatches envMal none, strip song1 ∈ b2) := by
  have h := C5_malformed_batch_discarded envMal none [strip song1]
    (by decide) rfl "v1" rfl (by decide)
  exact ⟨h.1, h.2.1, h.2.2.1,
    h.2.2.2.1 (by decide) (by decide) (by decide),
    h.2.2.2.2 envMal none rfl song1 (by decide) rfl⟩


/-! ## C9: report internal consistency -/

/-- The reconciliation fold keeps `total` equal to the sum of the
breakdown's `added` fields. -/
theorem reconcile_total_inv (pls : List PlaylistCfg)
    (ro ao : String → Bool) :
    ∀ (groups : List (String × List String)) (st : RecState),
      st.total = (st.breakdown.map (fun e => e.added)).sum →
      (groups.foldl (reconStep pls ro ao) st).total =
        ((groups.foldl (reconStep pls ro ao) st).breakdown.map
          (fun e => e.added)).sum := by
  intro groups
  induction groups with
  | nil => intro st h; exact h
  | cons g rest ih =>
    intro st h
    rw [List.foldl_cons]
    apply ih
    unfold reconStep
    cases hl : lookupPid pls g.1 with
    | none => exact h
    | some pid =>
      dsimp only
      rw [List.map_append, List.sum_append, ← h]
      simp

/-- Keys produced by `addToGroups`: unchanged if the key is present,
appended otherwise. -/
theorem addToGroups_keys (gs : List (String × List String))
    (k v : String) :
    (addToGroups gs k v).map Prod.fst =
      if k ∈ gs.map Prod.fst then gs.map Prod.fst
      else gs.map Prod.fst ++ [k] := by
  induction gs with
  | nil => simp [addToGroups]
  | cons g rest ih =>
    by_cases hk : g.1 = k
    · rw [addToGroups, if_pos hk]
      have hmem : k ∈ (g :: rest).map Prod.fst := by
        rw [List.map_cons, List.mem_cons]
        exact Or.inl hk.symm
      rw [if_pos hmem]
      simp
    · rw [addToGroups, if_neg hk]
      rw [List.map_cons, List.map_cons, ih]
      by_cases h1 : k ∈ rest.map Prod.fst
      · rw [if_pos h1, if_pos (List.mem_cons_of_mem g.1 h1)]
      · rw [if_neg h1]
        have h2 : ¬k ∈ g.1 :: rest.map Prod.fst := by
          rw [List.mem_cons]
          rintro (h | h)
          · exact hk h.symm
          · exact h1 h
        rw [if_neg h2]
        simp

/-- `addToGroups` preserves distinctness of group keys. -/
theorem addToGroups_keys_nodup (gs : List (String × List String))
    (k v : String) (h : (gs.map Prod.fst).Nodup) :
    ((addToGroups gs k v).map Prod.fst).Nodup := by
  rw [addToGroups_keys]
  split_ifs with hk
  · exact h
  · rw [List.nodup_append]
    exact ⟨h, List.nodup_singleton k,
      fun a ha hb => hk ((List.mem_singleton.mp hb) ▸ ha)⟩

/-- The grouping loop produces groups with pairwise-distinct keys. -/
theorem groupResults_keys_nodup (sched : Schedule) (rs : List Cat) :
    ((groupResults sched rs).map Prod.fst).Nodup := by
  have main : ∀ (rs' : List Cat) (gs : List (String × List String)),
      (gs.map Prod.fst).Nodup →
      ((rs'.foldl (groupStep sched) gs).map Prod.fst).Nodup := by
    intro rs'
    induction rs' with
    | nil => intro gs h; exact h
    | cons c rest ih =>
      intro gs h
      rw [List.foldl_cons]
      apply ih
      cases hv : c.videoId with
      | none => simpa [groupStep, hv] using h
      | some vid =>
        simp only [groupStep, hv]
        split_ifs with hcond
        · exact h
        · exact addToGroups_keys_nodup gs _ vid h
  exact main rs [] (by simp)

/-- C9: in every success report of `runSync`, `total_added` is the sum
of the breakdown's `added` fields; every breakdown entry's `attempted`
equals the size of the reconciliation group with that entry's key; and
group keys are pairwise distinct, so that group is unique. -/
theorem C9_report_consistency (env : SyncEnv) (l : Option Nat)
    (r : Report) (h : runSync env l = .success r) :
    r.total_added = (r.breakdown.map (fun e => e.added)).sum
    ∧ (∀ e ∈ r.breakdown, ∃ g ∈ groupsOf env l,
        e.key = g.1 ∧ e.attempted = g.2.length)
    ∧ ((groupsOf env l).map Prod.fst).Nodup := by
  have hr := runSync_success_inv env l r h
  subst hr
  refine ⟨?_, ?_, ?_⟩
  · exact reconcile_total_inv _ _ _ _ _ (by simp)
  · intro e he
    rcases reconcile_mem _ _ _ _ _ e he with h1 | h1
    · exact absurd h1 (List.not_mem_nil e)
    · rcases h1 with ⟨g, hg, pid, _, hk, _, ha⟩
      exact ⟨g, hg, hk, ha⟩
  · exact groupResults_keys_nodup env.schedule (allResults env l)

/-- Witness for C9 at `envAdd`: its run succeeds with one breakdown
entry, obtained by applying `C9_report_consistency` with the success
hypothesis discharged definitionally. -/
theorem C9_witness :
    ((⟨"success", 1, 1, 0, 1, [⟨"workout", "W", 1, 1⟩]⟩ : Report).total_added
      = ((⟨"success", 1, 1, 0, 1, [⟨"workout", "W", 1, 1⟩]⟩ : Report).breakdown.map
          (fun e => e.added)).sum)
    ∧ (∀ e ∈ (⟨"success", 1, 1, 0, 1,
          [⟨"workout", "W", 1, 1⟩]⟩ : Report).breakdown,
        ∃ g ∈ groupsOf envAdd none, e.key = g.1 ∧ e.attempted = g.2.length)
    ∧ ((groupsOf envAdd none).map Prod.fst).Nodup :=
  C9_report_consistency envAdd none
    ⟨"success", 1, 1, 0, 1, [⟨"workout", "W", 1, 1⟩]⟩ rfl


/-! ## C7: partial-failure containment -/

/-- A failing remote add degrades that call's count to 0. -/
theorem add_added_zero_of_fail (m : String → Finset String)
    (ro ao : String → Bool) (pid : String) (vids : List String)
    (hfail : ao pid = false) :
    (add_songs_to_playlist m ro ao pid vids).added = 0 := by
  rw [add_songs_eq]
  split_ifs with h1 h2 h3
  · rfl
  · rfl
  · rw [hfail] at h3
    simp at h3
  · rfl

/-- A failing remote add leaves the membership unchanged. -/
theorem add_mem_of_fail (m : String → Finset String)
    (ro ao : String → Bool) (pid : String) (vids : List String)
    (hfail : ao pid = false) :
    (add_songs_to_playlist m ro ao pid vids).mem = m := by
  rw [add_songs_eq]
  split_ifs with h1 h2 h3
  · rfl
  · rfl
  · rw [hfail] at h3
    simp at h3
  · rfl

/-- `add_songs_to_playlist` only depends on the target playlist's
membership and its own success oracle: equal inputs there give the same
count and the same resulting membership of that playlist. -/
theorem add_congr (m1 m2 : String → Finset String)
    (ro ao1 ao2 : String → Bool) (pid : String) (vids : List String)
    (hm : m1 pid = m2 pid) (hao : ao1 pid = ao2 pid) :
    (add_songs_to_playlist m1 ro ao1 pid vids).added
      = (add_songs_to_playlist m2 ro ao2 pid vids).added
    ∧ (add_songs_to_playlist m1 ro ao1 pid vids).mem pid
      = (add_songs_to_playlist m2 ro ao2 pid vids).mem pid := by
  have hex : get_playlist_video_ids m1 ro pid
      = get_playlist_video_ids m2 ro pid := by
    unfold get_playlist_video_ids
    rw [hm]
  rw [add_songs_eq, add_songs_eq]
  simp only [hex, hao]
  split_ifs with h1 h2 h3
  · exact ⟨rfl, hm⟩
  · exact ⟨rfl, hm⟩
  · refine ⟨rfl, ?_⟩
    dsimp only
    rw [if_pos rfl, if_pos rfl, hm]
  · exact ⟨rfl, hm⟩

/-- Every breakdown entry whose key resolves to the failing playlist id
has `added = 0`. -/
theorem reconcile_fail_zero (pls : List PlaylistCfg)
    (ro ao : String → Bool) (pidA : String) (hfail : ao pidA = false) :
    ∀ (groups : List (String × List String)) (st : RecState),
      (∀ e ∈ st.breakdown,
        lookupPid pls e.key = some pidA → e.added = 0) →
      ∀ e ∈ (groups.foldl (reconStep pls ro ao) st).breakdown,
        lookupPid pls e.key = some pidA → e.added = 0 := by
  intro groups
  induction groups with
  | nil => intro st h; exact h
  | cons g rest ih =>
    intro st h
    rw [List.foldl_cons]
    apply ih
    intro e he hkey
    unfold reconStep at he
    cases hl : lookupPid pls g.1 with
    | none => rw [hl] at he; exact h e he hkey
    | some pid =>
      rw [hl] at he
      dsimp only at he
      rcases List.mem_append.mp he with h1 | h1
      · exact h e h1 hkey
      · rw [List.mem_singleton] at h1
        subst h1
        dsimp only at hkey ⊢
        rw [hl] at hkey
        have hpp : pid = pidA := Option.some.inj hkey
        subst hpp
        exact add_added_zero_of_fail _ _ _ _ _ hfail

/-- Two reconciliation runs whose add oracles agree away from `pidA`
and whose memberships agree away from `pidA` produce the same
breakdown entries for every collection not resolving to `pidA`. -/
theorem reconcile_agree (pls : List PlaylistCfg) (ro ao ao' : String → Bool)
    (pidA : String) (hagree : ∀ p, p ≠ pidA → ao' p = ao p) :
    ∀ (groups : List (String × List String)) (st st' : RecState),
      st.breakdown.filter (fun e => !(lookupPid pls e.key == some pidA))
        = st'.breakdown.filter
            (fun e => !(lookupPid pls e.key == some pidA)) →
      (∀ p, p ≠ pidA → st.mem p = st'.mem p) →
      (groups.foldl (reconStep pls ro ao) st).breakdown.filter
          (fun e => !(lookupPid pls e.key == some pidA))
        = (groups.foldl (reconStep pls ro ao') st').breakdown.filter
            (fun e => !(lookupPid pls e.key == some pidA)) := by
  intro groups
  induction groups with
  | nil => intro st st' hbd _; exact hbd
  | cons g rest ih =>
    intro st st' hbd hmem
    rw [List.foldl_cons, List.foldl_cons]
    cases hl : lookupPid pls g.1 with
    | none =>
      have e1 : reconStep pls ro ao st g = st := by
        unfold reconStep
        rw [hl]
      have e2 : reconStep pls ro ao' st' g = st' := by
        unfold reconStep
        rw [hl]
      rw [e1, e2]
      exact ih st st' hbd hmem
    | some pid =>
      have e1 : reconStep pls ro ao st g =
          ⟨st.breakdown ++ [⟨g.1, nameFor pls g.1, g.2.length,
            (add_songs_to_playlist st.mem ro ao pid g.2).added⟩],
           st.total + (add_songs_to_playlist st.mem ro ao pid g.2).added,
           (add_songs_to_playlist st.mem ro ao pid g.2).mem⟩ := by
        unfold reconStep
        rw [hl]
      have e2 : reconStep pls ro ao' st' g =
          ⟨st'.breakdown ++ [⟨g.1, nameFor pls g.1, g.2.length,
            (add_songs_to_playlist st'.mem ro ao' pid g.2).added⟩],
           st'.total + (add_songs_to_playlist st'.mem ro ao' pid g.2).added,
           (add_songs_to_playlist st'.mem ro ao' pid g.2).mem⟩ := by
        unfold reconStep
        rw [hl]
      rw [e1, e2]
      by_cases hp : pid = pidA
      · subst hp
        apply ih
        · dsimp only
          rw [List.filter_append, List.filter_append]
          have hfe : ∀ n : Nat,
              List.filter (fun e => !(lookupPid pls e.key == some pid))
                [(⟨g.1, nameFor pls g.1, g.2.length, n⟩ : BreakEntry)]
              = [] := by
            intro n
            rw [List.filter_cons]
            dsimp only
            rw [hl]
            simp
          rw [hfe, hfe, List.append_nil, List.append_nil]
          exact hbd
        · intro p hp2
          dsimp only
          rw [add_mem_other _ _ _ _ _ p hp2, add_mem_other _ _ _ _ _ p hp2]
          exact hmem p hp2
      · have hmp : st.mem pid = st'.mem pid := hmem pid hp
        have haop : ao pid = ao' pid := (hagree pid hp).symm
        have hcong := add_congr st.mem st'.mem ro ao ao' pid g.2 hmp haop
        apply ih
        · dsimp only
          rw [List.filter_append, List.filter_append, hbd, hcong.1]
        · intro p hp2
          dsimp only
          by_cases hpp : p = pid
          · subst hpp
            exact hcong.2
          · rw [add_mem_other _ _ _ _ _ p hpp,
              add_mem_other _ _ _ _ _ p hpp]
            exact hmem p hp2

/-- C7: if the remote add fails for the collection resolving to `pidA`,
every breakdown entry for that collection reports `added = 0` (first
conjunct); the breakdown entries of every other collection are exactly
what they would have been had that add not failed (second conjunct);
and a run with valid configuration and non-empty history always
terminates with a success report (third conjunct). -/
theorem C7_partial_failure_containment (pls : List PlaylistCfg)
    (m0 : String → Finset String) (ro ao ao' : String → Bool)
    (pidA : String) (groups : List (String × List String))
    (hfail : ao pidA = false)
    (hagree : ∀ p, p ≠ pidA → ao' p = ao p) :
    (∀ e ∈ (reconcile pls m0 ro ao groups).breakdown,
        lookupPid pls e.key = some pidA → e.added = 0)
    ∧ ((reconcile pls m0 ro ao groups).breakdown.filter
          (fun e => !(lookupPid pls e.key == some pidA))
        = (reconcile pls m0 ro ao' groups).breakdown.filter
            (fun e => !(lookupPid pls e.key == some pidA)))
    ∧ (∀ (env : SyncEnv) (l : Option Nat), env.anthropic_key ≠ "" →
        env.playlists ≠ [] → env.history ≠ [] →
        ∃ r : Report, runSync env l = .success r) := by
  refine ⟨?_, ?_, ?_⟩
  · exact reconcile_fail_zero pls ro ao pidA hfail groups ⟨[], 0, m0⟩
      (fun e he => absurd he (List.not_mem_nil e))
  · exact reconcile_agree pls ro ao ao' pidA hagree groups
      ⟨[], 0, m0⟩ ⟨[], 0, m0⟩ rfl (fun _ _ => rfl)
  · intro env l h1 h2 h3
    exact ⟨_, runSync_success_eq env l h1 h2 h3⟩

/-- Witness for C7: two groups targeting `"PLW"` and `"PLC"`; the add
for `"PLW"` fails under `ao` and succeeds under `ao'`; the failing
entry reports 0 and the `"PLC"` entry is identical in both runs. -/
theorem C7_witness :
    (∀ e ∈ (reconcile plsTwo (fun _ => ∅) (fun _ => true)
        (fun p => if p = "PLW" then false else true)
        [("workout", ["v1"]), ("chill", ["v2"])]).breakdown,
      lookupPid plsTwo e.key = some "PLW" → e.added = 0)
    ∧ ((reconcile plsTwo (fun _ => ∅) (fun _ => true)
          (fun p => if p = "PLW" then false else true)
          [("workout", ["v1"]), ("chill", ["v2"])]).breakdown.filter
            (fun e => !(lookupPid plsTwo e.key == some "PLW"))
        = (reconcile plsTwo (fun _ => ∅) (fun _ => true) (fun _ => true)
            [("workout", ["v1"]), ("chill", ["v2"])]).breakdown.filter
            (fun e => !(lookupPid plsTwo e.key == some "PLW")))
    ∧ (∃ r : Report, runSync envAdd none = .success r) := by
  have h := C7_partial_failure_containment plsTwo (fun _ => ∅)
    (fun _ => true) (fun p => if p = "PLW" then false else true)
    (fun _ => true) "PLW" [("workout", ["v1"]), ("chill", ["v2"])]
    (by simp) (fun p hp => by simp [hp])
  exact ⟨h.1, h.2.1,
    h.2.2 envAdd none (by decide) (by decide) (by decide)⟩

end Floe
